import Mathlib

/-!
Shallow embedding of the multicam inference pipeline (kvs_infer) in Lean 4,
with theorems checking the natural-language specification against the code.

Conventions of the embedding:
* Python floats are modelled as rationals (ℚ); `//` on floats/ints is `Int.floor`
  of the rational quotient (for non-negative ints, `Nat` division).
* `collections.deque(maxlen = m)` is a list that drops its oldest (head)
  elements once the length would exceed `m` (`dequeAppend`).
* Functions that can raise are modelled with `Option`/explicit outcome types.
* Logging, Prometheus metrics and wall-clock timestamps are omitted; where a
  timestamp is stored it is passed in as a parameter.
-/

namespace KvsInfer

/-! ### Geometry kernel (src/kvs_infer/utils/roi.py, detectors/base.py) -/

/-- Bounding box `[x1, y1, x2, y2]` as used throughout the source. -/
structure Box where
  x1 : ℚ
  y1 : ℚ
  x2 : ℚ
  y2 : ℚ
  deriving DecidableEq, Repr

/-- Embedding of `iou` from `utils/roi.py` (intersection over union). -/
def iou (box1 box2 : Box) : ℚ :=
  let x1_i := max box1.x1 box2.x1
  let y1_i := max box1.y1 box2.y1
  let x2_i := min box1.x2 box2.x2
  let y2_i := min box1.y2 box2.y2
  if x2_i ≤ x1_i ∨ y2_i ≤ y1_i then 0
  else
    let intersection_area := (x2_i - x1_i) * (y2_i - y1_i)
    let box1_area := (box1.x2 - box1.x1) * (box1.y2 - box1.y1)
    let box2_area := (box2.x2 - box2.x1) * (box2.y2 - box2.y1)
    let union_area := box1_area + box2_area - intersection_area
    if union_area ≤ 0 then 0 else intersection_area / union_area

/-- Embedding of `calculate_iou` from `detectors/base.py`; the source carries a
verbatim duplicate of `iou` under this name. -/
def calculate_iou (box1 box2 : Box) : ℚ :=
  let x1_i := max box1.x1 box2.x1
  let y1_i := max box1.y1 box2.y1
  let x2_i := min box1.x2 box2.x2
  let y2_i := min box1.y2 box2.y2
  if x2_i ≤ x1_i ∨ y2_i ≤ y1_i then 0
  else
    let intersection := (x2_i - x1_i) * (y2_i - y1_i)
    let area1 := (box1.x2 - box1.x1) * (box1.y2 - box1.y1)
    let area2 := (box2.x2 - box2.x1) * (box2.y2 - box2.y1)
    let union := area1 + area2 - intersection
    if union ≤ 0 then 0 else intersection / union

/-- One iteration of the ray-casting loop shared by both `point_in_polygon`
copies.  In the source, `xinters` is only assigned when `p1y != p2y`, but the
guard `y > min(p1y, p2y) and y <= max(p1y, p2y)` already forces `p1y ≠ p2y`,
so computing it unconditionally inside the guard is equivalent. -/
def pipEdgeToggle (x y : ℚ) (p1 p2 : ℚ × ℚ) (inside : Bool) : Bool :=
  if min p1.2 p2.2 < y ∧ y ≤ max p1.2 p2.2 ∧ x ≤ max p1.1 p2.1 then
    let xinters := (y - p1.2) * (p2.1 - p1.1) / (p2.2 - p1.2) + p1.1
    if p1.1 = p2.1 ∨ x ≤ xinters then !inside else inside
  else inside

/-- The fold of `pipEdgeToggle` over the polygon's edge list. -/
def pipLoop (x y : ℚ) : List ((ℚ × ℚ) × (ℚ × ℚ)) → Bool → Bool
  | [], inside => inside
  | e :: es, inside => pipLoop x y es (pipEdgeToggle x y e.1 e.2 inside)

/-- The edge sequence visited by the source loop: for `i` in `1..n` the pair
`(polygon[i-1], polygon[i % n])`. -/
def pipEdges : List (ℚ × ℚ) → List ((ℚ × ℚ) × (ℚ × ℚ))
  | [] => []
  | p0 :: rest => List.zip (p0 :: rest) (rest ++ [p0])

/-- Embedding of `point_in_polygon` from `utils/roi.py`: this copy guards
`if not polygon or len(polygon) < 3: return False`. -/
def point_in_polygon (point : ℚ × ℚ) (polygon : List (ℚ × ℚ)) : Bool :=
  if polygon.length < 3 then false
  else pipLoop point.1 point.2 (pipEdges polygon) false

/-- Embedding of `point_in_polygon` from `detectors/base.py`: this copy has no
vertex-count guard, and `p1x, p1y = polygon[0]` raises `IndexError` on an
empty polygon — modelled as `none`. -/
def base_point_in_polygon (point : ℚ × ℚ) (polygon : List (ℚ × ℚ)) : Option Bool :=
  match polygon with
  | [] => none
  | _ :: _ => some (pipLoop point.1 point.2 (pipEdges polygon) false)

/-! ### Temporal buffer (utils/roi.py) -/

/-- Append to a `collections.deque(maxlen := m)`: the new element goes to the
tail, and the oldest elements are dropped so that at most `m` remain. -/
def dequeAppend {α : Type} (maxlen : ℕ) (l : List α) (e : α) : List α :=
  let l' := l ++ [e]
  l'.drop (l'.length - maxlen)

/-- One entry of `TemporalBuffer.buffer`: `(label, bbox, confidence, frame_idx)`. -/
structure TBEntry where
  label : String
  box : Box
  confidence : ℚ
  frame_idx : ℕ
  deriving DecidableEq, Repr

/-- Embedding of `TemporalBuffer` from `utils/roi.py`. -/
structure TemporalBuffer where
  maxlen : ℕ
  buffer : List TBEntry
  frame_counter : ℕ
  deriving DecidableEq, Repr

/-- `TemporalBuffer(maxlen)` constructor. -/
def TemporalBuffer.mkEmpty (maxlen : ℕ) : TemporalBuffer :=
  ⟨maxlen, [], 0⟩

/-- Embedding of `TemporalBuffer.add`. -/
def TemporalBuffer.add (buf : TemporalBuffer) (label : String) (box : Box)
    (confidence : ℚ) (frame_idx : Option ℕ) : TemporalBuffer :=
  let idx := frame_idx.getD buf.frame_counter
  let fc := if frame_idx.isNone then buf.frame_counter + 1 else buf.frame_counter
  { buf with
    buffer := dequeAppend buf.maxlen buf.buffer ⟨label, box, confidence, idx⟩
    frame_counter := fc }

/-- Embedding of `TemporalBuffer.count_similar`. -/
def TemporalBuffer.count_similar (buf : TemporalBuffer) (label : String)
    (box : Box) (iou_threshold : ℚ) : ℕ :=
  buf.buffer.countP fun e =>
    e.label == label && decide (iou_threshold ≤ iou box e.box)

/-- Embedding of `temporal_confirm` from `utils/roi.py`: count against the
existing buffer, append, then return `count >= min_confirmations - 1`.
(`min_confirmations - 1` is ℕ-truncated; for `min_confirmations = 0` Python
compares against `-1` and our `0 ≤ count` — both are always true.) -/
def temporal_confirm (buffer : TemporalBuffer) (label : String) (box : Box)
    (confidence : ℚ) (min_confirmations : ℕ) (iou_threshold : ℚ)
    (frame_idx : Option ℕ) : Bool × TemporalBuffer :=
  let count := buffer.count_similar label box iou_threshold
  let buffer := buffer.add label box confidence frame_idx
  (decide (min_confirmations - 1 ≤ count), buffer)

/-! ### Temporal confirmation helper (detectors/base.py) -/

/-- Embedding of `TemporalDetection` from `detectors/base.py`; `timestamp` is
the `time.time()` value recorded at insertion. -/
structure TemporalDetection where
  label : String
  bbox : Box
  conf : ℚ
  timestamp : ℚ
  frame_index : ℕ
  deriving DecidableEq, Repr

/-- Embedding of `TemporalConfirmationHelper` from `detectors/base.py`,
restricted to a single camera: `history` is that camera's deque
(`maxlen := window_frames`). -/
structure TemporalConfirmationHelper where
  window_frames : ℕ
  iou_threshold : ℚ
  min_confirmations : ℕ
  history : List TemporalDetection
  deriving DecidableEq, Repr

namespace TemporalConfirmationHelper

/-- Embedding of `add_detection` (with the wall clock passed in as `now`). -/
def add_detection (h : TemporalConfirmationHelper) (label : String) (bbox : Box)
    (conf : ℚ) (frame_index : ℕ) (now : ℚ) : TemporalConfirmationHelper :=
  { h with
    history := dequeAppend h.window_frames h.history
      ⟨label, bbox, conf, now, frame_index⟩ }

/-- Embedding of `check_confirmation`: early-out when the history is shorter
than `min_confirmations`, otherwise count matches and compare with
`min_confirmations` (not `min_confirmations - 1`). -/
def check_confirmation (h : TemporalConfirmationHelper) (label : String)
    (bbox : Box) : Bool :=
  if h.history.length < h.min_confirmations then false
  else
    let confirmations := h.history.countP fun past =>
      past.label == label && decide (h.iou_threshold ≤ calculate_iou bbox past.bbox)
    decide (h.min_confirmations ≤ confirmations)

/-- Embedding of `add_and_check`: check against the existing history, then add. -/
def add_and_check (h : TemporalConfirmationHelper) (label : String) (bbox : Box)
    (conf : ℚ) (frame_index : ℕ) (now : ℚ) : Bool × TemporalConfirmationHelper :=
  let confirmed := h.check_confirmation label bbox
  let h := h.add_detection label bbox conf frame_index now
  (confirmed, h)

end TemporalConfirmationHelper

/-- One detector observation fed to either confirmation path: label, bbox,
confidence, frame index, and the wall clock at that call. -/
structure TCall where
  label : String
  box : Box
  conf : ℚ
  frame_idx : ℕ
  now : ℚ
  deriving DecidableEq, Repr

/-- Run a sequence of calls through `temporal_confirm`, collecting the
returned booleans. -/
def tcRun (minc : ℕ) (thr : ℚ) : TemporalBuffer → List TCall → List Bool × TemporalBuffer
  | buf, [] => ([], buf)
  | buf, c :: cs =>
    let (b, buf') := temporal_confirm buf c.label c.box c.conf minc thr (some c.frame_idx)
    let (bs, buf'') := tcRun minc thr buf' cs
    (b :: bs, buf'')

/-- Run a sequence of calls through `TemporalConfirmationHelper.add_and_check`,
collecting the returned booleans. -/
def tchRun : TemporalConfirmationHelper → List TCall → List Bool × TemporalConfirmationHelper
  | h, [] => ([], h)
  | h, c :: cs =>
    let (b, h') := h.add_and_check c.label c.box c.conf c.frame_idx c.now
    let (bs, h'') := tchRun h' cs
    (b :: bs, h'')

/-! ### Weapon detector: temporal confirmation + spatial dedup
(src/kvs_infer/detectors/weapon.py) -/

/-- Embedding of `_bbox_to_grid`: the grid-cell identifier string
`"{gx}_{gy}"` with `gx = int(center_x // grid_size)`. -/
def bbox_to_grid (bbox : Box) (grid_size : ℚ) : String :=
  let center_x := (bbox.x1 + bbox.x2) / 2
  let center_y := (bbox.y1 + bbox.y2) / 2
  let grid_x := ⌊center_x / grid_size⌋
  let grid_y := ⌊center_y / grid_size⌋
  toString grid_x ++ "_" ++ toString grid_y

/-- Embedding of `_detection_hash`.  The source feeds `"{label}:{grid_id}"`
through `hashlib.md5(...).hexdigest()[:12]`; the digest step is modelled as
the identity on the hash input (i.e. md5 truncation is assumed
collision-free on the inputs that occur). -/
def detection_hash (label : String) (bbox : Box) (grid_size : ℚ) : String :=
  label ++ ":" ++ bbox_to_grid bbox grid_size

/-- The mutable per-detector state of `WeaponDetector` that the
confirmation/dedup loop reads and writes. -/
structure WeaponState where
  use_temporal_buffer : Bool
  temporal_buffer : TemporalBuffer
  temporal_helper : TemporalConfirmationHelper
  temporal_min_conf : ℕ
  temporal_iou : ℚ
  dedup_window : ℕ
  dedup_grid_size : ℚ
  recent_detections : List (ℕ × String)
  frame_count : ℕ
  deriving DecidableEq, Repr

/-- Emitted event fields relevant to the weapon detector
(`type` is always "weapon"). -/
structure WEvent where
  camera_id : String
  label : String
  conf : ℚ
  bbox : Box
  ts_ms : ℕ
  frame_count : ℕ
  det_hash : String
  deriving DecidableEq, Repr

/-- The duplicate scan of `WeaponDetector.process`: some held hash equals the
candidate's hash with `frame_count - frame_num < dedup_window`. -/
def isDuplicate (recent : List (ℕ × String)) (frame_count : ℕ)
    (dedup_window : ℕ) (det_hash : String) : Bool :=
  recent.any fun p => p.2 == det_hash && decide (frame_count - p.1 < dedup_window)

/-- The temporal-confirmation step of the per-detection loop in
`WeaponDetector.process`: either `temporal_confirm` over the new buffer or the
legacy helper's `add_and_check`, per `use_temporal_buffer`. -/
def weaponConfirmStep (st : WeaponState) (label : String) (conf : ℚ)
    (bbox : Box) : Bool × WeaponState :=
  if st.use_temporal_buffer then
    let r := temporal_confirm st.temporal_buffer label bbox conf
      st.temporal_min_conf st.temporal_iou (some st.frame_count)
    (r.1, { st with temporal_buffer := r.2 })
  else
    let r := st.temporal_helper.add_and_check label bbox conf st.frame_count 0
    (r.1, { st with temporal_helper := r.2 })

/-- The body of the per-detection loop in `WeaponDetector.process`
(lines 269-335): temporal confirmation, then the dedup check, then ring
insertion and event emission. -/
def weaponProcessOne (st : WeaponState) (camera_id : String) (ts_ms : ℕ)
    (label : String) (conf : ℚ) (bbox : Box) : List WEvent × WeaponState :=
  let step := weaponConfirmStep st label conf bbox
  let is_confirmed := step.1
  let st := step.2
  if !is_confirmed then ([], st)
  else
    let det_hash := detection_hash label bbox st.dedup_grid_size
    if isDuplicate st.recent_detections st.frame_count st.dedup_window det_hash then
      ([], st)
    else
      let st := { st with
        recent_detections :=
          dequeAppend st.dedup_window st.recent_detections (st.frame_count, det_hash) }
      ([⟨camera_id, label, conf, bbox, ts_ms, st.frame_count, det_hash⟩], st)

/-- The confirmation/dedup stage of `WeaponDetector.process` for one frame:
`self._frame_count += 1` happens first, then the loop over the (already
class/ROI/area-filtered) detections. -/
def weaponProcessFrame (st : WeaponState) (camera_id : String) (ts_ms : ℕ)
    (detections : List (String × ℚ × Box)) : List WEvent × WeaponState :=
  let st := { st with frame_count := st.frame_count + 1 }
  detections.foldl
    (fun (acc : List WEvent × WeaponState) d =>
      let (evs, st') := weaponProcessOne acc.2 camera_id ts_ms d.1 d.2.1 d.2.2
      (acc.1 ++ evs, st'))
    ([], st)

/-- Run `weaponProcessFrame` over consecutive frames. -/
def weaponRun (camera_id : String) :
    WeaponState → List (ℕ × List (String × ℚ × Box)) → List (List WEvent) × WeaponState
  | st, [] => ([], st)
  | st, f :: fs =>
    let (evs, st') := weaponProcessFrame st camera_id f.1 f.2
    let (rest, st'') := weaponRun camera_id st' fs
    (evs :: rest, st'')

/-! ### KDS publisher (src/kvs_infer/publisher/kds.py) -/

/-- Embedding of the hash-input string built inside `_generate_event_id`:
`f"{camera_id}:{event_type}:{label}:{ts_bucket}"` with
`ts_bucket = ts_ms // 1000`.  `ts_ms` is milliseconds since the epoch and the
event schema requires `ts_ms > 0`, so it is modelled as ℕ (Python `//` on
non-negative ints is ℕ division). -/
def hash_input (camera_id event_type label : String) (ts_ms : ℕ) : String :=
  camera_id ++ ":" ++ event_type ++ ":" ++ label ++ ":" ++ Nat.repr (ts_ms / 1000)

/-- Embedding of `_generate_event_id`, parametric in the digest function:
the source returns `hashlib.sha1(hash_input.encode()).hexdigest()`, and
`sha1hex` stands for that fixed digest-of-string function. -/
def generate_event_id (sha1hex : String → String)
    (camera_id event_type label : String) (ts_ms : ℕ) : String :=
  sha1hex (hash_input camera_id event_type label ts_ms)

/-- The batching half of `KDSClient` state: `batch_size` and `_batch_buffer`;
`α` stands for one `(envelope, partition_key)` record. -/
structure KDSBuf (α : Type) where
  batch_size : ℕ
  batch_buffer : List α

/-- Embedding of `KDSClient.flush`: if the buffer is empty return `True`;
otherwise copy it, clear it, and return the result of
`_send_batch_with_retries` on the copy (`send` abstracts that call, covering
success, partial failure and permanent failure). -/
def KDSBuf.flush {α : Type} (st : KDSBuf α) (send : List α → Bool) : Bool × KDSBuf α :=
  if st.batch_buffer.isEmpty then (true, st)
  else
    let batch := st.batch_buffer
    let st := { st with batch_buffer := ([] : List α) }
    (send batch, st)

/-- Embedding of `KDSClient.put_event`: append the enveloped record to the
buffer, flush if the buffer reached `batch_size`, else return `True`. -/
def KDSBuf.put_event {α : Type} (st : KDSBuf α) (e : α) (send : List α → Bool) :
    Bool × KDSBuf α :=
  let st := { st with batch_buffer := st.batch_buffer ++ [e] }
  if st.batch_size ≤ st.batch_buffer.length then st.flush send
  else (true, st)

/-- Outcome of one `put_records` attempt inside `_send_batch_with_retries`:
a normal response (its `FailedRecordCount` plus, for each submitted record in
order, whether its per-record result carried an `ErrorCode`), a retryable
`ClientError` (`ProvisionedThroughputExceededException` / `ServiceUnavailable`),
a non-retryable `ClientError`, or an unexpected exception. -/
inductive KdsAttempt where
  | ok (failedCount : ℕ) (flags : List Bool)
  | throttled
  | clientFatal
  | exn

/-- The failed-record extraction of `_send_batch_with_retries`:
`[failed_records[i] for i, r in enumerate(response.Records) if ErrorCode in r]`.
One response entry per submitted record, in order. -/
def nextFailedRecords {α : Type} (sent : List α) (flags : List Bool) : List α :=
  ((sent.zip flags).filter (fun p => p.2)).map (fun p => p.1)

/-- The `while attempt <= max_retries and failed_records` loop of
`_send_batch_with_retries`.  `fuel` is `max_retries + 1 - attempt`; the result
lists every batch passed to `put_records`, in order, together with the boolean
the method returns.  Backoff sleeps and metrics do not affect record
selection and are omitted. -/
def sendLoop {α : Type} (oracle : ℕ → KdsAttempt) :
    ℕ → ℕ → List α → List (List α) × Bool
  | 0, _, failed => ([], failed.isEmpty)
  | fuel + 1, attempt, failed =>
    if failed.isEmpty then ([], true)
    else
      match oracle attempt with
      | .ok failedCount flags =>
        if failedCount = 0 then ([failed], true)
        else
          let nf := nextFailedRecords failed flags
          let r := sendLoop oracle fuel (attempt + 1) nf
          (failed :: r.1, r.2)
      | .throttled =>
        let r := sendLoop oracle fuel (attempt + 1) failed
        (failed :: r.1, r.2)
      | .clientFatal => ([failed], false)
      | .exn => ([failed], false)

/-- Embedding of `_send_batch_with_retries`: attempts run at
`attempt = 0, 1, …, max_retries`. -/
def send_batch_with_retries {α : Type} (oracle : ℕ → KdsAttempt)
    (max_retries : ℕ) (records : List α) : List (List α) × Bool :=
  sendLoop oracle (max_retries + 1) 0 records

/-! ### DDB publisher (src/kvs_infer/publisher/ddb.py) -/

mutual

/-- A Python value as it appears in an event payload: strings, ints, floats,
`Decimal`s, bools, `None`, dicts and lists. -/
inductive PyVal where
  | pstr : String → PyVal
  | pint : ℤ → PyVal
  | pfloat : ℚ → PyVal
  | pdec : ℚ → PyVal
  | pbool : Bool → PyVal
  | pnone : PyVal
  | pdict : PyFields → PyVal
  | plist : PyList → PyVal

/-- String-keyed fields of a Python dict. -/
inductive PyFields where
  | nil : PyFields
  | cons : String → PyVal → PyFields → PyFields

/-- Elements of a Python list. -/
inductive PyList where
  | nil : PyList
  | cons : PyVal → PyList → PyList

end

mutual

/-- Embedding of `_convert_floats_to_decimal`: floats become `Decimal`s,
dicts and lists are converted recursively, everything else is unchanged. -/
def convertFloats : PyVal → PyVal
  | .pfloat q => .pdec q
  | .pdict kvs => .pdict (convertFloatsFields kvs)
  | .plist xs => .plist (convertFloatsList xs)
  | v => v

/-- `_convert_floats_to_decimal` on dict fields. -/
def convertFloatsFields : PyFields → PyFields
  | .nil => .nil
  | .cons k v rest => .cons k (convertFloats v) (convertFloatsFields rest)

/-- `_convert_floats_to_decimal` on list elements. -/
def convertFloatsList : PyList → PyList
  | .nil => .nil
  | .cons v rest => .cons (convertFloats v) (convertFloatsList rest)

end

mutual

/-- No native float at any nesting depth of a value. -/
def noFloat : PyVal → Bool
  | .pfloat _ => false
  | .pdict kvs => noFloatFields kvs
  | .plist xs => noFloatList xs
  | _ => true

/-- No native float in any dict field. -/
def noFloatFields : PyFields → Bool
  | .nil => true
  | .cons _ v rest => noFloat v && noFloatFields rest

/-- No native float in any list element. -/
def noFloatList : PyList → Bool
  | .nil => true
  | .cons v rest => noFloat v && noFloatList rest

end

/-- The event envelope consumed by `DDBWriter._prepare_item`: wrapper fields
plus the payload fields it flattens.  `conf` is a Python float and `bbox` a
list of floats; `extras` is an arbitrary dict. -/
structure Envelope where
  event_id : String
  camera_id : String
  producer : String
  ts_ms : ℕ
  etype : String
  label : String
  conf : ℚ
  bbox : List ℚ
  extras : PyFields

/-- Helper turning the payload's bbox float list into a `PyList`. -/
def floatList : List ℚ → PyList
  | [] => .nil
  | q :: qs => .cons (.pfloat q) (floatList qs)

/-- Embedding of `DDBWriter._prepare_item`: flatten the payload into a
top-level dict, optionally add the TTL timestamp, then run
`_convert_floats_to_decimal` over the whole item.  `now` stands for
`int(time.time())`. -/
def prepare_item (e : Envelope) (ttl_days : Option ℕ) (now : ℕ) : PyFields :=
  let item : PyFields :=
    .cons "event_id" (.pstr e.event_id) (
    .cons "camera_id" (.pstr e.camera_id) (
    .cons "producer" (.pstr e.producer) (
    .cons "ts_ms" (.pint e.ts_ms) (
    .cons "type" (.pstr e.etype) (
    .cons "label" (.pstr e.label) (
    .cons "conf" (.pfloat e.conf) (
    .cons "bbox" (.plist (floatList e.bbox)) (
    .cons "extras" (.pdict e.extras) .nil))))))))
  let item := match ttl_days with
    | some d => PyFields.cons "ttl" (.pint (now + d * 86400)) item
    | none => item
  convertFloatsFields item

/-! ### KVS HLS frame source (src/kvs_infer/frame_source/kvs_hls.py)

The state machine of `KVSHLSFrameSource` is embedded with the external world
(stream opens, frame reads, URL refreshes, jitter draws) supplied per call.
Raising `FrameSourceError` is the `fatal` outcome. -/

/-- Embedding of `ConnectionState`. -/
inductive ConnState where
  | disconnected
  | connecting
  | connected
  | reconnecting
  | error
  deriving DecidableEq, Repr

/-- The configuration fields of `KVSHLSFrameSource` that drive reconnection. -/
structure SrcCfg where
  reconnect_delay : ℚ
  max_reconnect_delay : ℚ
  backoff_multiplier : ℚ
  max_consecutive_errors : ℕ
  deriving DecidableEq, Repr

/-- The mutable state of `KVSHLSFrameSource` relevant to reconnection:
`_connection_state`, `_consecutive_errors`, `_current_backoff`, and whether
`_capture` is open. -/
structure SrcSt where
  conn : ConnState
  consecutive_errors : ℕ
  current_backoff : ℚ
  captureOpen : Bool
  deriving DecidableEq, Repr

/-- Initial state set by `__init__`. -/
def SrcSt.init (cfg : SrcCfg) : SrcSt :=
  ⟨.disconnected, 0, cfg.reconnect_delay, false⟩

/-- External inputs consumed by one `read_frame` call.  `hrOpen k` /
`hrJitter k` are the open result and jitter draw used by the `k`-th
`_handle_reconnect` invocation within this call. -/
structure CallWorld where
  openTop : Bool
  refreshNeeded : Bool
  refreshOk : Bool
  readOk : Bool
  hrOpen : ℕ → Bool
  hrJitter : ℕ → ℚ

/-- Embedding of `_calculate_backoff_delay`: return
`min(current_backoff, max) * jitter` and advance `current_backoff` to
`min(current_backoff * multiplier, max)`. -/
def calculate_backoff_delay (cfg : SrcCfg) (st : SrcSt) (jitter : ℚ) : ℚ × SrcSt :=
  let delay := min st.current_backoff cfg.max_reconnect_delay
  let delay_with_jitter := delay * jitter
  let st := { st with
    current_backoff := min (st.current_backoff * cfg.backoff_multiplier)
      cfg.max_reconnect_delay }
  (delay_with_jitter, st)

/-- Embedding of `_reset_backoff`. -/
def reset_backoff (cfg : SrcCfg) (st : SrcSt) : SrcSt :=
  { st with current_backoff := cfg.reconnect_delay, consecutive_errors := 0 }

/-- Embedding of `_open_stream`: on success the state becomes `connected`
with the capture open and (via `_reset_backoff`) the error counter cleared;
on failure (URL acquisition error or capture that fails to open) the state
becomes `error` with no open capture. -/
def open_stream (cfg : SrcCfg) (st : SrcSt) (ok : Bool) : Bool × SrcSt :=
  if ok then
    (true, reset_backoff cfg { st with conn := .connected, captureOpen := true })
  else
    (false, { st with conn := .error, captureOpen := false })

/-- Result of `_handle_reconnect`: `fatal` is the `FrameSourceError` raise,
otherwise the boolean returned by the inner `_open_stream`. -/
inductive HRes where
  | fatal
  | success
  | failure
  deriving DecidableEq, Repr

/-- Embedding of `_handle_reconnect`: increment `_consecutive_errors`; raise
when it reaches `max_consecutive_errors`; otherwise compute the backoff
delay, sleep it (recorded in the returned list), and attempt `_open_stream`. -/
def handle_reconnect (cfg : SrcCfg) (st : SrcSt) (openOk : Bool) (jitter : ℚ) :
    HRes × SrcSt × List ℚ :=
  let st := { st with consecutive_errors := st.consecutive_errors + 1 }
  if cfg.max_consecutive_errors ≤ st.consecutive_errors then (.fatal, st, [])
  else
    let (delay, st) := calculate_backoff_delay cfg st jitter
    let (ok, st) := open_stream cfg st openOk
    (if ok then .success else .failure, st, [delay])

/-- Outcome of one `read_frame` call: a frame, `None`, or a propagated
`FrameSourceError`. -/
inductive ReadOutcome where
  | frame
  | noneOut
  | fatal
  deriving DecidableEq, Repr

/-- The `except Exception` handler of `read_frame`: it catches a
`FrameSourceError` raised by an in-`try` `_handle_reconnect` and calls
`_handle_reconnect` once more; a raise from that call propagates. -/
def readFrameExcept (cfg : SrcCfg) (st : SrcSt) (w : CallWorld) (k : ℕ)
    (sl : List ℚ) : ReadOutcome × SrcSt × List ℚ :=
  match handle_reconnect cfg st (w.hrOpen k) (w.hrJitter k) with
  | (.fatal, st', s) => (.fatal, st', sl ++ s)
  | (_, st', s) => (.noneOut, st', sl ++ s)

/-- The `try` block of `read_frame`: capture check, then the actual read.
`_handle_reconnect` raises inside the `try` are routed to `readFrameExcept`. -/
def readFrameTry (cfg : SrcCfg) (st : SrcSt) (w : CallWorld) (k : ℕ)
    (sl : List ℚ) : ReadOutcome × SrcSt × List ℚ :=
  if !st.captureOpen then
    match handle_reconnect cfg st (w.hrOpen k) (w.hrJitter k) with
    | (.fatal, st', s) => readFrameExcept cfg st' w (k + 1) (sl ++ s)
    | (_, st', s) => (.noneOut, st', sl ++ s)
  else if w.readOk then
    (.frame, reset_backoff cfg st, sl)
  else
    match handle_reconnect cfg st (w.hrOpen k) (w.hrJitter k) with
    | (.fatal, st', s) => readFrameExcept cfg st' w (k + 1) (sl ++ s)
    | (_, st', s) => (.noneOut, st', sl ++ s)

/-- The `_refresh_url_if_needed` step of `read_frame`: a successful refresh
moves the state to `reconnecting`; a failed refresh goes through
`_handle_reconnect` (outside the `try`, so a raise propagates). -/
def readFrameRefresh (cfg : SrcCfg) (st : SrcSt) (w : CallWorld) (k : ℕ)
    (sl : List ℚ) : ReadOutcome × SrcSt × List ℚ :=
  if w.refreshNeeded then
    if w.refreshOk then
      readFrameTry cfg { st with conn := .reconnecting } w k sl
    else
      match handle_reconnect cfg st (w.hrOpen k) (w.hrJitter k) with
      | (.fatal, st', s) => (.fatal, st', sl ++ s)
      | (.failure, st', s) => (.noneOut, st', sl ++ s)
      | (.success, st', s) => readFrameTry cfg st' w (k + 1) (sl ++ s)
  else
    readFrameTry cfg st w k sl

/-- Embedding of `read_frame`: reopen the stream when not
connected/reconnecting (reconnecting via `_handle_reconnect` on failure, with
a raise propagating), then the URL-refresh step, then the guarded read. -/
def read_frame (cfg : SrcCfg) (st : SrcSt) (w : CallWorld) :
    ReadOutcome × SrcSt × List ℚ :=
  if st.conn = .connected ∨ st.conn = .reconnecting then
    readFrameRefresh cfg st w 0 []
  else
    let (ok, st1) := open_stream cfg st w.openTop
    if ok then readFrameRefresh cfg st1 w 0 []
    else
      match handle_reconnect cfg st1 (w.hrOpen 0) (w.hrJitter 0) with
      | (.fatal, st2, s) => (.fatal, st2, s)
      | (.failure, st2, s) => (.noneOut, st2, s)
      | (.success, st2, s) => readFrameRefresh cfg st2 w 1 s

/-- Successive `read_frame` calls (the caller keeps invoking the source),
collecting outcomes, the final state, and every sleep in order. -/
def runCalls (cfg : SrcCfg) : SrcSt → List CallWorld → List ReadOutcome × SrcSt × List ℚ
  | st, [] => ([], st, [])
  | st, w :: ws =>
    let (o, st1, s) := read_frame cfg st w
    let r := runCalls cfg st1 ws
    (o :: r.1, r.2.1, s ++ r.2.2)

/-- The crossing condition of one ray-cast iteration, as a proposition:
the edge `(a, b)` straddles the ray height and the intersection lies at or
right of the query point. -/
def pipCrosses (x y : ℚ) (a b : ℚ × ℚ) : Prop :=
  (min a.2 b.2 < y ∧ y ≤ max a.2 b.2 ∧ x ≤ max a.1 b.1) ∧
  (a.1 = b.1 ∨ x ≤ (y - a.2) * (b.1 - a.1) / (b.2 - a.2) + a.1)

instance (x y : ℚ) (a b : ℚ × ℚ) : Decidable (pipCrosses x y a b) := by
  unfold pipCrosses
  infer_instance

/-- The character list `Nat.repr` is built from. -/
def natDigits (n : ℕ) : List Char :=
  Nat.toDigits 10 n

/-! ### Scenario definitions used by the claim theorems -/

/-- The request trace of `_send_batch_with_retries`. -/
def kdsRequests {α : Type} (oracle : ℕ → KdsAttempt) (max_retries : ℕ)
    (records : List α) : List (List α) :=
  (send_batch_with_retries oracle max_retries records).1

/-- A `read_frame` call in which the stream cannot be (re)opened, the URL
needs no refresh, and a read (if reached) fails. -/
def wFail (j : ℚ) : CallWorld :=
  ⟨false, false, true, false, fun _ => false, fun _ => j⟩

/-- A `read_frame` call in which opening succeeds and the read succeeds. -/
def wRecover : CallWorld :=
  ⟨true, false, true, true, fun _ => false, fun _ => 1⟩

/-- A healthy connected source (stream open, no consecutive errors). -/
def connectedSt (cfg : SrcCfg) : SrcSt :=
  ⟨.connected, 0, cfg.reconnect_delay, true⟩

/-- The source state after `n` consecutive failing calls starting from
`connectedSt`, jitter draws given by `j`. -/
def failTrace (cfg : SrcCfg) (j : ℕ → ℚ) : ℕ → SrcSt
  | 0 => connectedSt cfg
  | n + 1 => (read_frame cfg (failTrace cfg j n) (wFail (j (n + 1)))).2.1

/-- Call number `n + 1` of the consecutive-failure scenario. -/
def failCall (cfg : SrcCfg) (j : ℕ → ℚ) (n : ℕ) : ReadOutcome × SrcSt × List ℚ :=
  read_frame cfg (failTrace cfg j n) (wFail (j (n + 1)))

/-- The value of `_current_backoff` after `n` updates by
`_calculate_backoff_delay`. -/
def cbTrace (cfg : SrcCfg) : ℕ → ℚ
  | 0 => cfg.reconnect_delay
  | n + 1 => min (cbTrace cfg n * cfg.backoff_multiplier) cfg.max_reconnect_delay

/-- The error state with `n` consecutive errors and backoff `cbTrace n`. -/
def stErr (cfg : SrcCfg) (n : ℕ) : SrcSt :=
  ⟨.error, n, cbTrace cfg n, false⟩

/-!
## Theorems

Everything below settles the specification claims against the embedded code.
-/

theorem calculate_iou_eq_iou : calculate_iou = iou := rfl

/-! ### Decimal rendering of ℕ is injective

`hash_input` renders the timestamp bucket with `Nat.repr`; the lemmas below
establish that distinct buckets render to distinct strings. -/

theorem toDigitsCore_append (f n : ℕ) (ds : List Char) :
    Nat.toDigitsCore 10 f n ds = Nat.toDigitsCore 10 f n [] ++ ds := by
  induction f generalizing n ds with
  | zero => simp [Nat.toDigitsCore]
  | succ f ih =>
    simp only [Nat.toDigitsCore]
    by_cases h : n / 10 = 0
    · simp [h]
    · simp only [h, if_false]
      rw [ih (n / 10) (Nat.digitChar (n % 10) :: ds),
        ih (n / 10) [Nat.digitChar (n % 10)], List.append_assoc]
      simp

theorem toDigitsCore_fuel (f₁ : ℕ) :
    ∀ f₂ n : ℕ, n < f₁ → n < f₂ → ∀ ds : List Char,
      Nat.toDigitsCore 10 f₁ n ds = Nat.toDigitsCore 10 f₂ n ds := by
  induction f₁ with
  | zero =>
    intro f₂ n h₁
    omega
  | succ f₁ ih =>
    intro f₂ n h₁ h₂ ds
    match f₂, h₂ with
    | f₂ + 1, h₂ =>
      simp only [Nat.toDigitsCore]
      by_cases h : n / 10 = 0
      · simp [h]
      · simp only [h, if_false]
        have hlt : n / 10 < n := Nat.div_lt_self (by omega) (by norm_num)
        exact ih f₂ (n / 10) (by omega) (by omega) (Nat.digitChar (n % 10) :: ds)

theorem natDigits_of_lt {n : ℕ} (h : n < 10) : natDigits n = [Nat.digitChar n] := by
  have hdiv : n / 10 = 0 := Nat.div_eq_of_lt h
  have hmod : n % 10 = n := Nat.mod_eq_of_lt h
  simp [natDigits, Nat.toDigits, Nat.toDigitsCore, hdiv, hmod]

theorem natDigits_of_ge {n : ℕ} (h : 10 ≤ n) :
    natDigits n = natDigits (n / 10) ++ [Nat.digitChar (n % 10)] := by
  have hdiv : n / 10 ≠ 0 := by omega
  have hlt : n / 10 < n := Nat.div_lt_self (by omega) (by norm_num)
  calc natDigits n
      = Nat.toDigitsCore 10 n (n / 10) [Nat.digitChar (n % 10)] := by
        simp only [natDigits, Nat.toDigits, Nat.toDigitsCore]
        simp [hdiv]
    _ = Nat.toDigitsCore 10 n (n / 10) [] ++ [Nat.digitChar (n % 10)] :=
        toDigitsCore_append n (n / 10) [Nat.digitChar (n % 10)]
    _ = Nat.toDigitsCore 10 (n / 10 + 1) (n / 10) [] ++ [Nat.digitChar (n % 10)] := by
        rw [toDigitsCore_fuel n (n / 10 + 1) (n / 10) (by omega) (by omega)]
    _ = natDigits (n / 10) ++ [Nat.digitChar (n % 10)] := rfl

theorem natDigits_ne_nil (n : ℕ) : natDigits n ≠ [] := by
  rcases lt_or_ge n 10 with h | h
  · simp [natDigits_of_lt h]
  · simp [natDigits_of_ge h]

theorem digitChar_inj :
    ∀ a < 10, ∀ b < 10, Nat.digitChar a = Nat.digitChar b → a = b := by decide

theorem natDigits_inj : ∀ m n : ℕ, natDigits m = natDigits n → m = n := by
  intro m
  induction m using Nat.strong_induction_on with
  | _ m ih =>
    intro n hmn
    rcases lt_or_ge m 10 with hm | hm <;> rcases lt_or_ge n 10 with hn | hn
    · rw [natDigits_of_lt hm, natDigits_of_lt hn] at hmn
      exact digitChar_inj m hm n hn (List.cons.inj hmn).1
    · rw [natDigits_of_lt hm, natDigits_of_ge hn] at hmn
      rcases List.exists_cons_of_ne_nil (natDigits_ne_nil (n / 10)) with ⟨c, cs, hc⟩
      rw [hc] at hmn
      simp at hmn
    · rw [natDigits_of_ge hm, natDigits_of_lt hn] at hmn
      rcases List.exists_cons_of_ne_nil (natDigits_ne_nil (m / 10)) with ⟨c, cs, hc⟩
      rw [hc] at hmn
      simp at hmn
    · rw [natDigits_of_ge hm, natDigits_of_ge hn] at hmn
      have hparts := List.append_inj' hmn (by simp)
      have hdiv : m / 10 = n / 10 :=
        ih (m / 10) (Nat.div_lt_self (by omega) (by norm_num)) (n / 10) hparts.1
      have hmod : m % 10 = n % 10 :=
        digitChar_inj (m % 10) (Nat.mod_lt m (by norm_num)) (n % 10)
          (Nat.mod_lt n (by norm_num)) (List.cons.inj hparts.2).1
      omega

theorem natRepr_inj {m n : ℕ} (h : Nat.repr m = Nat.repr n) : m = n := by
  apply natDigits_inj
  have : (natDigits m).asString = (natDigits n).asString := h
  simpa [List.asString, String.ext_iff] using this

/-! ### C7: event id bucketing -/

/-- C7: `_generate_event_id` digests the string
`"{camera_id}:{event_type}:{label}:{ts_ms // 1000}"`; with equal camera, type
and label, timestamps in the same 1-second bucket yield identical event ids,
and timestamps in different buckets yield different hash inputs. -/
theorem generate_event_id_bucketing (sha1hex : String → String)
    (camera_id event_type label : String) (ts1 ts2 : ℕ) :
    generate_event_id sha1hex camera_id event_type label ts1 =
      sha1hex (hash_input camera_id event_type label ts1) ∧
    (ts1 / 1000 = ts2 / 1000 →
      generate_event_id sha1hex camera_id event_type label ts1 =
        generate_event_id sha1hex camera_id event_type label ts2) ∧
    (ts1 / 1000 ≠ ts2 / 1000 →
      hash_input camera_id event_type label ts1 ≠
        hash_input camera_id event_type label ts2) := by
  refine ⟨rfl, ?_, ?_⟩
  · intro h
    unfold generate_event_id hash_input
    rw [h]
  · intro hne heq
    apply hne
    apply natRepr_inj
    apply String.ext
    have hdata := congrArg String.data heq
    unfold hash_input at hdata
    simp only [String.data_append, List.append_assoc] at hdata
    replace hdata := List.append_cancel_left hdata
    replace hdata := List.append_cancel_left hdata
    replace hdata := List.append_cancel_left hdata
    replace hdata := List.append_cancel_left hdata
    replace hdata := List.append_cancel_left hdata
    exact List.append_cancel_left hdata

/-- C7 witness: the spec's S5 instance — ts 1234 and 1876 share bucket 1 and
get the same event id; ts 2001 sits in bucket 2, a different hash input. -/
theorem generate_event_id_bucketing_witness :
    generate_event_id (fun s => s) "cam-a" "weapon" "gun" 1234 =
      generate_event_id (fun s => s) "cam-a" "weapon" "gun" 1876 ∧
    hash_input "cam-a" "weapon" "gun" 1234 ≠ hash_input "cam-a" "weapon" "gun" 2001 :=
  ⟨(generate_event_id_bucketing (fun s => s) "cam-a" "weapon" "gun" 1234 1876).2.1
      (by norm_num),
    (generate_event_id_bucketing (fun s => s) "cam-a" "weapon" "gun" 1234 2001).2.2
      (by norm_num)⟩

/-! ### C8: no float reaches the DynamoDB item -/

mutual

theorem noFloat_convert : (v : PyVal) → noFloat (convertFloats v) = true
  | .pstr _ => rfl
  | .pint _ => rfl
  | .pfloat _ => rfl
  | .pdec _ => rfl
  | .pbool _ => rfl
  | .pnone => rfl
  | .pdict kvs => by
    simpa [convertFloats, noFloat] using noFloatFields_convert kvs
  | .plist xs => by
    simpa [convertFloats, noFloat] using noFloatList_convert xs

theorem noFloatFields_convert :
    (kvs : PyFields) → noFloatFields (convertFloatsFields kvs) = true
  | .nil => rfl
  | .cons _ v rest => by
    simp [convertFloatsFields, noFloatFields, noFloat_convert v,
      noFloatFields_convert rest]

theorem noFloatList_convert :
    (xs : PyList) → noFloatList (convertFloatsList xs) = true
  | .nil => rfl
  | .cons v rest => by
    simp [convertFloatsList, noFloatList, noFloat_convert v,
      noFloatList_convert rest]

end

/-- C8: the item `DDBWriter._prepare_item` produces carries no native float at
any nesting depth — every float (confidence, bbox coordinates, anything inside
`extras`) has been converted to Decimal. -/
theorem prepare_item_no_float (e : Envelope) (ttl_days : Option ℕ) (now : ℕ) :
    noFloatFields (prepare_item e ttl_days now) = true := by
  unfold prepare_item
  cases ttl_days <;> exact noFloatFields_convert _

/-! ### C9: point-in-polygon on degenerate polygons -/

theorem pipEdgeToggle_eq (x y : ℚ) (a b : ℚ × ℚ) (i : Bool) :
    pipEdgeToggle x y a b i = if pipCrosses x y a b then !i else i := by
  unfold pipEdgeToggle pipCrosses
  by_cases h₁ : min a.2 b.2 < y ∧ y ≤ max a.2 b.2 ∧ x ≤ max a.1 b.1
  · rw [if_pos h₁]
    show (if a.1 = b.1 ∨ x ≤ (y - a.2) * (b.1 - a.1) / (b.2 - a.2) + a.1
      then !i else i) = _
    by_cases h₂ : a.1 = b.1 ∨ x ≤ (y - a.2) * (b.1 - a.1) / (b.2 - a.2) + a.1
    · rw [if_pos h₂, if_pos ⟨h₁, h₂⟩]
    · rw [if_neg h₂, if_neg (fun hc => h₂ hc.2)]
  · rw [if_neg h₁, if_neg (fun hc => h₁ hc.1)]

theorem pipCrosses_swap (x y : ℚ) (a b : ℚ × ℚ) :
    pipCrosses x y b a ↔ pipCrosses x y a b := by
  unfold pipCrosses
  constructor
  all_goals
    rintro ⟨⟨hmin, hmax, hx⟩, hinner⟩
    have hne : a.2 ≠ b.2 := by
      intro h
      rw [h] at hmin hmax
      simp at hmin hmax
      exact absurd (lt_of_lt_of_le hmin hmax) (lt_irrefl _)
    have hxi : (y - b.2) * (a.1 - b.1) / (a.2 - b.2) + b.1 =
        (y - a.2) * (b.1 - a.1) / (b.2 - a.2) + a.1 := by
      have h1 : a.2 - b.2 ≠ 0 := sub_ne_zero.mpr hne
      have h2 : b.2 - a.2 ≠ 0 := sub_ne_zero.mpr (Ne.symm hne)
      field_simp
      ring
  · refine ⟨⟨?_, ?_, ?_⟩, ?_⟩
    · rwa [min_comm] at hmin
    · rwa [max_comm] at hmax
    · rwa [max_comm] at hx
    · rcases hinner with h | h
      · exact Or.inl h.symm
      · exact Or.inr (by rwa [hxi] at h)
  · refine ⟨⟨?_, ?_, ?_⟩, ?_⟩
    · rwa [min_comm] at hmin
    · rwa [max_comm] at hmax
    · rwa [max_comm] at hx
    · rcases hinner with h | h
      · exact Or.inl h.symm
      · exact Or.inr (by rwa [← hxi] at h)

theorem pipEdgeToggle_pair (x y : ℚ) (a b : ℚ × ℚ) (i : Bool) :
    pipEdgeToggle x y b a (pipEdgeToggle x y a b i) = i := by
  rw [pipEdgeToggle_eq, pipEdgeToggle_eq]
  by_cases h : pipCrosses x y a b
  · rw [if_pos h, if_pos ((pipCrosses_swap x y a b).mpr h), Bool.not_not]
  · rw [if_neg h, if_neg (fun hc => h ((pipCrosses_swap x y a b).mp hc))]

/-- C9 (amended): the `utils/roi.py` copy of `point_in_polygon` returns false
for every polygon with fewer than 3 vertices; the `detectors/base.py` copy
returns false for 1- and 2-vertex polygons, but on the empty polygon it
raises `IndexError` instead of returning. -/
theorem point_in_polygon_short (p : ℚ × ℚ) (polygon : List (ℚ × ℚ))
    (h : polygon.length < 3) :
    point_in_polygon p polygon = false ∧
    (polygon ≠ [] → base_point_in_polygon p polygon = some false) ∧
    base_point_in_polygon p [] = none := by
  refine ⟨by simp [point_in_polygon, h], ?_, rfl⟩
  intro hne
  match polygon, h with
  | [a], _ =>
    simp only [base_point_in_polygon, pipEdges, List.zip, Option.some.injEq]
    show pipLoop p.1 p.2 [(a, a)] false = false
    simp only [pipLoop, pipEdgeToggle_eq]
    rw [if_neg]
    rintro ⟨⟨hmin, hmax, _⟩, _⟩
    simp at hmin hmax
    exact absurd (lt_of_lt_of_le hmin hmax) (lt_irrefl _)
  | [a, b], _ =>
    simp only [base_point_in_polygon, pipEdges, List.zip, Option.some.injEq]
    show pipLoop p.1 p.2 [(a, b), (b, a)] false = false
    simp only [pipLoop]
    exact pipEdgeToggle_pair p.1 p.2 a b false

/-- C9 counterexample: on the empty polygon the `detectors/base.py` copy does
not return false (it raises, modelled as `none`), so the claim fails as stated
for that copy. -/
theorem base_point_in_polygon_empty_not_false :
    base_point_in_polygon ((0 : ℚ), (0 : ℚ)) [] ≠ some false := by
  simp [base_point_in_polygon]

/-- C9 witness: the amended statement applied to a concrete 2-vertex polygon. -/
theorem point_in_polygon_short_witness :
    point_in_polygon ((1 : ℚ), (1 : ℚ)) [((0 : ℚ), (0 : ℚ)), ((2 : ℚ), (0 : ℚ))] = false ∧
    base_point_in_polygon ((1 : ℚ), (1 : ℚ)) [((0 : ℚ), (0 : ℚ)), ((2 : ℚ), (0 : ℚ))] =
      some false := by
  have h := point_in_polygon_short ((1 : ℚ), (1 : ℚ))
    [((0 : ℚ), (0 : ℚ)), ((2 : ℚ), (0 : ℚ))] (by simp)
  exact ⟨h.1, h.2.1 (by simp)⟩

/-! ### C10: flush always empties the batch buffer -/

/-- C10: after `KDSClient.flush` the internal buffer is empty regardless of the
send outcome; a non-empty buffer is handed to the (single) send and never
returned to the buffer; and `put_event` returns true whenever it does not
itself trigger a flush. -/
theorem kds_flush_empties_buffer {α : Type} (st : KDSBuf α) (e : α)
    (send : List α → Bool) :
    ((st.flush send).2.batch_buffer = []) ∧
    (st.batch_buffer ≠ [] → (st.flush send).1 = send st.batch_buffer) ∧
    (st.batch_buffer.length + 1 < st.batch_size → (st.put_event e send).1 = true) := by
  refine ⟨?_, ?_, ?_⟩
  · unfold KDSBuf.flush
    split_ifs with h
    · simpa [List.isEmpty_iff] using h
    · rfl
  · intro hne
    unfold KDSBuf.flush
    rw [if_neg (by simpa [List.isEmpty_iff] using hne)]
  · intro hlt
    unfold KDSBuf.put_event
    rw [if_neg (by simp; omega)]

/-- C10 witness: a failed send still leaves the buffer empty, and a
non-triggering `put_event` reports success. -/
theorem kds_flush_empties_buffer_witness :
    ((KDSBuf.flush ⟨3, [1]⟩ (fun _ => false)).2.batch_buffer = ([] : List ℕ)) ∧
    ((KDSBuf.put_event ⟨3, [1]⟩ 2 (fun _ => false)).1 = true) := by
  have h := kds_flush_empties_buffer (⟨3, [1]⟩ : KDSBuf ℕ) 2 (fun _ => false)
  exact ⟨h.1, h.2.2 (by norm_num)⟩

/-! ### C1: temporal_confirm fires exactly on the k-th matching call -/

theorem dequeAppend_of_lt {α : Type} {m : ℕ} {l : List α} (e : α)
    (h : l.length < m) : dequeAppend m l e = l ++ [e] := by
  show List.drop ((l ++ [e]).length - m) (l ++ [e]) = l ++ [e]
  have h0 : (l ++ [e]).length - m = 0 := by simp; omega
  rw [h0, List.drop_zero]

theorem dequeAppend_map {α β : Type} (m : ℕ) (l : List α) (e : α) (f : α → β) :
    (dequeAppend m l e).map f = dequeAppend m (l.map f) (f e) := by
  unfold dequeAppend
  simp [List.map_drop]

/-- `count_similar` counts the whole buffer when every entry matches. -/
theorem count_similar_of_all {buf : TemporalBuffer} {l : String} {b : Box}
    {thr : ℚ} (h : ∀ e ∈ buf.buffer, e.label = l ∧ thr ≤ iou b e.box) :
    buf.count_similar l b thr = buf.buffer.length := by
  unfold TemporalBuffer.count_similar
  rw [List.countP_eq_length]
  intro e he
  have := h e he
  simp [this.1, this.2]

/-- Generalised induction for C1: starting from a buffer whose `held` entries
all match every pending call, the i-th pending call returns
`min_confirmations - 1 ≤ held.length + i`. -/
theorem tcRun_all_match (W k : ℕ) (thr : ℚ) (l : String) :
    ∀ (pending : List TCall) (held : List TBEntry) (fc : ℕ),
      held.length + pending.length ≤ W →
      (∀ e ∈ held, e.label = l) →
      (∀ c ∈ pending, ∀ e ∈ held, thr ≤ iou c.box e.box) →
      List.Pairwise (fun c₁ c₂ => thr ≤ iou c₂.box c₁.box) pending →
      (∀ c ∈ pending, c.label = l) →
      (tcRun k thr ⟨W, held, fc⟩ pending).1 =
        (List.range pending.length).map (fun i => decide (k - 1 ≤ held.length + i)) := by
  intro pending
  induction pending with
  | nil =>
    intro held fc _ _ _ _ _
    simp [tcRun]
  | cons c cs ih =>
    intro held fc hlen hheld hcross hpair hlab
    have hcl : c.label = l := hlab c (by simp)
    have hcount : TemporalBuffer.count_similar ⟨W, held, fc⟩ c.label c.box thr
        = held.length := by
      apply count_similar_of_all
      intro e he
      exact ⟨(hheld e he).trans hcl.symm, hcross c (by simp) e he⟩
    have hsmall : held.length < W := by
      simp at hlen
      omega
    have hadd : (TemporalBuffer.add ⟨W, held, fc⟩ c.label c.box c.conf
        (some c.frame_idx)).buffer = held ++ [⟨c.label, c.box, c.conf, c.frame_idx⟩] := by
      unfold TemporalBuffer.add
      simp [dequeAppend_of_lt _ hsmall]
    simp only [tcRun, temporal_confirm]
    rw [hcount]
    have hrec := ih (held ++ [⟨c.label, c.box, c.conf, c.frame_idx⟩]) fc
      (by simp at hlen ⊢; omega)
      (by
        intro e he
        rcases List.mem_append.mp he with h | h
        · exact hheld e h
        · simp at h
          subst h
          exact hcl)
      (by
        intro c' hc' e he
        rcases List.mem_append.mp he with h | h
        · exact hcross c' (by simp [hc']) e h
        · simp at h
          subst h
          exact (List.pairwise_cons.mp hpair).1 c' hc')
      (List.pairwise_cons.mp hpair).2
      (fun c' hc' => hlab c' (by simp [hc']))
    have hbufeq : (TemporalBuffer.add ⟨W, held, fc⟩ c.label c.box c.conf
        (some c.frame_idx)) = ⟨W, held ++ [⟨c.label, c.box, c.conf, c.frame_idx⟩], fc⟩ := by
      unfold TemporalBuffer.add at hadd ⊢
      simp only [Option.isNone_some]
      simp only [dequeAppend_of_lt _ hsmall]
      rfl
    rw [hbufeq, hrec, List.length_cons, List.range_succ_eq_map, List.map_cons,
      List.map_map]
    refine List.cons_eq_cons.mpr ⟨by simp, ?_⟩
    apply List.map_congr_left
    intro i _
    simp only [Function.comp_apply, Function.comp, List.length_append,
      List.length_cons, List.length_nil]
    rw [decide_eq_decide]
    omega

/-- C1: with `min_confirmations = k`, a window `W ≥ k`, and `k` successive
calls carrying one label whose bboxes have IoU ≥ `iou_threshold` against every
held entry, call number `i + 1` returns true exactly when `i + 1 = k`. -/
theorem temporal_confirm_kth_call (W k : ℕ) (thr : ℚ) (l : String)
    (calls : List TCall) (hk : calls.length = k) (hW : k ≤ W)
    (hlab : ∀ c ∈ calls, c.label = l)
    (hpair : List.Pairwise (fun c₁ c₂ => thr ≤ iou c₂.box c₁.box) calls)
    (i : ℕ) (hi : i < k) :
    (tcRun k thr (TemporalBuffer.mkEmpty W) calls).1.getD i false =
      decide (i + 1 = k) := by
  have h := tcRun_all_match W k thr l calls [] 0 (by simp [hk, hW]) (by simp)
    (by simp) hpair hlab
  simp only [List.length_nil, Nat.zero_add] at h
  show (tcRun k thr ⟨W, [], 0⟩ calls).1.getD i false = decide (i + 1 = k)
  rw [h, hk]
  have hget : (List.map (fun j => decide (k - 1 ≤ j)) (List.range k)).getD i false
      = decide (k - 1 ≤ i) := by
    simp [List.getD_eq_getElem?_getD, List.getElem?_range, hi]
  rw [hget, decide_eq_decide]
  omega

/-- C1 witness: three identical detections with `min_confirmations = 3` and
window 5 — the first two calls return false and the third returns true. -/
theorem temporal_confirm_kth_call_witness :
    ((tcRun 3 (1/2) (TemporalBuffer.mkEmpty 5)
        [⟨"gun", ⟨0, 0, 10, 10⟩, 9/10, 1, 0⟩,
         ⟨"gun", ⟨0, 0, 10, 10⟩, 9/10, 2, 0⟩,
         ⟨"gun", ⟨0, 0, 10, 10⟩, 9/10, 3, 0⟩]).1.getD 0 false = false) ∧
    ((tcRun 3 (1/2) (TemporalBuffer.mkEmpty 5)
        [⟨"gun", ⟨0, 0, 10, 10⟩, 9/10, 1, 0⟩,
         ⟨"gun", ⟨0, 0, 10, 10⟩, 9/10, 2, 0⟩,
         ⟨"gun", ⟨0, 0, 10, 10⟩, 9/10, 3, 0⟩]).1.getD 1 false = false) ∧
    ((tcRun 3 (1/2) (TemporalBuffer.mkEmpty 5)
        [⟨"gun", ⟨0, 0, 10, 10⟩, 9/10, 1, 0⟩,
         ⟨"gun", ⟨0, 0, 10, 10⟩, 9/10, 2, 0⟩,
         ⟨"gun", ⟨0, 0, 10, 10⟩, 9/10, 3, 0⟩]).1.getD 2 false = true) := by
  have hpair : List.Pairwise (fun c₁ c₂ : TCall => (1/2 : ℚ) ≤ iou c₂.box c₁.box)
      [⟨"gun", ⟨0, 0, 10, 10⟩, 9/10, 1, 0⟩,
       ⟨"gun", ⟨0, 0, 10, 10⟩, 9/10, 2, 0⟩,
       ⟨"gun", ⟨0, 0, 10, 10⟩, 9/10, 3, 0⟩] := by
    norm_num [List.pairwise_cons, iou]
  refine ⟨?_, ?_, ?_⟩
  · exact (temporal_confirm_kth_call 5 3 (1/2) "gun"
      [⟨"gun", ⟨0, 0, 10, 10⟩, 9/10, 1, 0⟩,
       ⟨"gun", ⟨0, 0, 10, 10⟩, 9/10, 2, 0⟩,
       ⟨"gun", ⟨0, 0, 10, 10⟩, 9/10, 3, 0⟩] rfl (by norm_num)
      (by simp) hpair 0 (by norm_num)).trans (by decide)
  · exact (temporal_confirm_kth_call 5 3 (1/2) "gun"
      [⟨"gun", ⟨0, 0, 10, 10⟩, 9/10, 1, 0⟩,
       ⟨"gun", ⟨0, 0, 10, 10⟩, 9/10, 2, 0⟩,
       ⟨"gun", ⟨0, 0, 10, 10⟩, 9/10, 3, 0⟩] rfl (by norm_num)
      (by simp) hpair 1 (by norm_num)).trans (by decide)
  · exact (temporal_confirm_kth_call 5 3 (1/2) "gun"
      [⟨"gun", ⟨0, 0, 10, 10⟩, 9/10, 1, 0⟩,
       ⟨"gun", ⟨0, 0, 10, 10⟩, 9/10, 2, 0⟩,
       ⟨"gun", ⟨0, 0, 10, 10⟩, 9/10, 3, 0⟩] rfl (by norm_num)
      (by simp) hpair 2 (by norm_num)).trans (by decide)

/-! ### C2: the two temporal-confirmation implementations are not equivalent -/

/-- Matching counts agree between the two histories when they hold the same
label/bbox sequence (`calculate_iou` is a verbatim copy of `iou`). -/
theorem count_agree (l : String) (b : Box) (thr : ℚ)
    (hist : List TemporalDetection) (buf : List TBEntry)
    (h : buf.map (fun e => (e.label, e.box)) = hist.map (fun d => (d.label, d.bbox))) :
    buf.countP (fun e => e.label == l && decide (thr ≤ iou b e.box)) =
      hist.countP (fun d => d.label == l && decide (thr ≤ calculate_iou b d.bbox)) := by
  have h1 : buf.countP (fun e => e.label == l && decide (thr ≤ iou b e.box)) =
      (buf.map (fun e => (e.label, e.box))).countP
        (fun p => p.1 == l && decide (thr ≤ iou b p.2)) := by
    rw [List.countP_map]
    rfl
  have h2 : hist.countP (fun d => d.label == l && decide (thr ≤ calculate_iou b d.bbox)) =
      (hist.map (fun d => (d.label, d.bbox))).countP
        (fun p => p.1 == l && decide (thr ≤ iou b p.2)) := by
    rw [List.countP_map]
    rfl
  rw [h1, h2, h]

/-- Generalised induction for the corrected C2: over corresponding histories,
`add_and_check` with `min_confirmations = m` returns call-for-call what
`temporal_confirm` returns with `min_confirmations = m + 1`. -/
theorem tchRun_eq_tcRun_succ (W m : ℕ) (thr : ℚ) :
    ∀ (calls : List TCall) (hist : List TemporalDetection) (buf : List TBEntry) (fc : ℕ),
      buf.map (fun e => (e.label, e.box)) = hist.map (fun d => (d.label, d.bbox)) →
      (tchRun ⟨W, thr, m, hist⟩ calls).1 = (tcRun (m + 1) thr ⟨W, buf, fc⟩ calls).1 := by
  intro calls
  induction calls with
  | nil =>
    intro hist buf fc _
    rfl
  | cons c cs ih =>
    intro hist buf fc hcorr
    have hlen : buf.length = hist.length := by
      have := congrArg List.length hcorr
      simpa using this
    have hcnt := count_agree c.label c.box thr hist buf hcorr
    simp only [tchRun, tcRun, TemporalConfirmationHelper.add_and_check,
      TemporalConfirmationHelper.check_confirmation, TemporalConfirmationHelper.add_detection,
      temporal_confirm, TemporalBuffer.add, TemporalBuffer.count_similar]
    have hout : (if hist.length < m then false
        else decide (m ≤ hist.countP (fun past =>
          past.label == c.label && decide (thr ≤ calculate_iou c.box past.bbox)))) =
        decide (m + 1 - 1 ≤ buf.countP (fun e =>
          e.label == c.label && decide (thr ≤ iou c.box e.box))) := by
      rw [hcnt]
      simp only [Nat.add_sub_cancel]
      split_ifs with hshort
      · have hle := List.countP_le_length (p := fun past =>
          past.label == c.label && decide (thr ≤ calculate_iou c.box past.bbox))
          (l := hist)
        symm
        rw [decide_eq_false_iff_not]
        omega
      · rfl
    rw [hout]
    congr 1
    apply ih
    rw [dequeAppend_map, dequeAppend_map, hcorr]

/-- C2 (amended): the two implementations are not observationally equivalent;
instead they differ by exactly one confirmation: over any call sequence,
`TemporalConfirmationHelper.add_and_check` with `min_confirmations = m` and
window `W` returns, call for call, what `temporal_confirm` returns over a
`TemporalBuffer` of window `W` with `min_confirmations = m + 1` — i.e. with
equal parameters the helper confirms one call later. -/
theorem add_and_check_is_temporal_confirm_succ (W m : ℕ) (thr : ℚ)
    (calls : List TCall) :
    (tchRun ⟨W, thr, m, []⟩ calls).1 =
      (tcRun (m + 1) thr (TemporalBuffer.mkEmpty W) calls).1 :=
  tchRun_eq_tcRun_succ W m thr calls [] [] 0 rfl

/-- C2 counterexample: with identical parameters
(`window = 5, iou_threshold = 1/2, min_confirmations = 1`) and a single
detection, `temporal_confirm` returns true but `add_and_check` returns false —
the two paths are not observationally equivalent as claimed. -/
theorem add_and_check_ne_temporal_confirm :
    (tchRun ⟨5, 1/2, 1, []⟩ [⟨"gun", ⟨0, 0, 10, 10⟩, 9/10, 1, 0⟩]).1 ≠
      (tcRun 1 (1/2) (TemporalBuffer.mkEmpty 5)
        [⟨"gun", ⟨0, 0, 10, 10⟩, 9/10, 1, 0⟩]).1 := by
  decide

/-! ### C5: retries resend exactly the failed records, in order -/

theorem nextFailedRecords_sublist {α : Type} :
    ∀ (sent : List α) (flags : List Bool),
      (nextFailedRecords sent flags).Sublist sent
  | [], _ => by simp [nextFailedRecords]
  | _ :: _, [] => by simp [nextFailedRecords]
  | a :: as, f :: fs => by
    unfold nextFailedRecords
    cases f
    · simpa [List.filter] using (nextFailedRecords_sublist as fs).cons a
    · simpa [List.filter] using (nextFailedRecords_sublist as fs).cons₂ a

/-- Every branch of one loop iteration sends `failed` first. -/
theorem sendLoop_head {α : Type} (oracle : ℕ → KdsAttempt) :
    ∀ (fuel attempt : ℕ) (failed s : List α),
      ((sendLoop oracle fuel attempt failed).1).get? 0 = some s → s = failed := by
  intro fuel attempt failed s h
  match fuel with
  | 0 => simp [sendLoop] at h
  | fuel + 1 =>
    unfold sendLoop at h
    by_cases he : failed.isEmpty
    · simp [he] at h
    · simp only [he, Bool.false_eq_true, if_false] at h
      cases ho : oracle attempt <;> simp only [ho] at h
      · rename_i fc flags
        by_cases hfc : fc = 0
        · simp [hfc] at h
          exact h.symm
        · simp [hfc] at h
          exact h.symm
      · simp at h
        exact h.symm
      · simp at h
        exact h.symm
      · simp at h
        exact h.symm

/-- When the loop starts with a non-empty batch, the first request is that
batch. -/
theorem sendLoop_first {α : Type} (oracle : ℕ → KdsAttempt) :
    ∀ (fuel attempt : ℕ) (failed : List α), failed ≠ [] → 1 ≤ fuel →
      ((sendLoop oracle fuel attempt failed).1).get? 0 = some failed := by
  intro fuel attempt failed hne hfuel
  match fuel with
  | fuel + 1 =>
    unfold sendLoop
    have he : failed.isEmpty = false := by simpa [List.isEmpty_iff] using hne
    simp only [he, Bool.false_eq_true, if_false]
    cases oracle attempt
    · rename_i fc flags
      by_cases hfc : fc = 0
      · simp [hfc]
      · simp [hfc]
    · simp
    · simp
    · simp

/-- Consecutive requests of the retry loop: each is a sublist of the previous,
and after a normal response with `FailedRecordCount > 0` the next request is
exactly the error-flagged records of the previous one, in order. -/
theorem sendLoop_step {α : Type} (oracle : ℕ → KdsAttempt) :
    ∀ (fuel attempt : ℕ) (failed : List α) (i : ℕ) (s t : List α),
      ((sendLoop oracle fuel attempt failed).1).get? i = some s →
      ((sendLoop oracle fuel attempt failed).1).get? (i + 1) = some t →
      t.Sublist s ∧
        ∀ fc flags, oracle (attempt + i) = .ok fc flags → fc ≠ 0 →
          t = nextFailedRecords s flags := by
  intro fuel
  induction fuel with
  | zero =>
    intro attempt failed i s t hs _
    simp [sendLoop] at hs
  | succ fuel ih =>
    intro attempt failed i s t hs ht
    unfold sendLoop at hs ht
    by_cases he : failed.isEmpty
    · simp [he] at hs
    · simp only [he, Bool.false_eq_true, if_false] at hs ht
      cases ho : oracle attempt <;> simp only [ho] at hs ht
      · rename_i fc flags
        by_cases hfc : fc = 0
        · simp only [hfc, if_true, if_pos rfl] at ht
          cases i <;> simp at ht
        · simp only [hfc, if_false, if_neg hfc] at hs ht
          cases i with
          | zero =>
            simp only [List.get?_cons_zero, Option.some.injEq] at hs
            simp only [List.get?_cons_succ] at ht
            have htail := sendLoop_head oracle fuel (attempt + 1)
              (nextFailedRecords failed flags) t ht
            subst hs
            subst htail
            refine ⟨nextFailedRecords_sublist failed flags, ?_⟩
            intro fc' flags' hok _
            rw [Nat.add_zero, ho] at hok
            cases hok
            rfl
          | succ i =>
            simp only [List.get?_cons_succ] at hs ht
            have := ih (attempt + 1) (nextFailedRecords failed flags) i s t hs ht
            refine ⟨this.1, ?_⟩
            intro fc' flags' hok hfc'
            have harith : attempt + (i + 1) = attempt + 1 + i := by omega
            rw [harith] at hok
            exact this.2 fc' flags' hok hfc'
      · cases i with
        | zero =>
          simp only [List.get?_cons_zero, Option.some.injEq] at hs
          simp only [List.get?_cons_succ] at ht
          have htail := sendLoop_head oracle fuel (attempt + 1) failed t ht
          subst hs
          subst htail
          refine ⟨List.Sublist.refl _, ?_⟩
          intro fc' flags' hok _
          rw [Nat.add_zero, ho] at hok
          cases hok
        | succ i =>
          simp only [List.get?_cons_succ] at hs ht
          have := ih (attempt + 1) failed i s t hs ht
          refine ⟨this.1, ?_⟩
          intro fc' flags' hok hfc'
          have harith : attempt + (i + 1) = attempt + 1 + i := by omega
          rw [harith] at hok
          exact this.2 fc' flags' hok hfc'
      · cases i <;> simp at ht
      · cases i <;> simp at ht

/-- A record absent from one request never reappears in a later request. -/
theorem sendLoop_absent {α : Type} (oracle : ℕ → KdsAttempt)
    (fuel attempt : ℕ) (failed : List α) :
    ∀ (d i : ℕ) (x : α) (s t : List α),
      ((sendLoop oracle fuel attempt failed).1).get? i = some s →
      ((sendLoop oracle fuel attempt failed).1).get? (i + d) = some t →
      x ∉ s → x ∉ t := by
  intro d
  induction d with
  | zero =>
    intro i x s t hs ht hx
    rw [Nat.add_zero, hs] at ht
    cases ht
    exact hx
  | succ d ihd =>
    intro i x s t hs ht hx
    have hlt : i + d < ((sendLoop oracle fuel attempt failed).1).length := by
      have := (List.get?_eq_some.mp ht).1
      omega
    obtain ⟨u, hu⟩ : ∃ u, ((sendLoop oracle fuel attempt failed).1).get? (i + d) = some u :=
      ⟨_, List.get?_eq_get hlt⟩
    have hstep := sendLoop_step oracle fuel attempt failed (i + d) u t hu ht
    exact fun hxt => ihd i x s u hs hu hx (hstep.1.subset hxt)

/-- C5: over any run of `_send_batch_with_retries`, the first request carries
the whole batch; after a response with `FailedRecordCount > 0` the next
request (when one is made) contains exactly the records whose per-record
result carried an `ErrorCode`, in their original submission order (a sublist
of the previous request); and a record that succeeded — dropped from some
request — is never re-sent in any later request. -/
theorem kds_retry_resends_exactly_failed {α : Type} (oracle : ℕ → KdsAttempt)
    (max_retries : ℕ) (records : List α) :
    (records ≠ [] → (kdsRequests oracle max_retries records).get? 0 = some records) ∧
    (∀ i s t, (kdsRequests oracle max_retries records).get? i = some s →
      (kdsRequests oracle max_retries records).get? (i + 1) = some t →
      t.Sublist s ∧
        ∀ fc flags, oracle i = .ok fc flags → fc ≠ 0 →
          t = nextFailedRecords s flags) ∧
    (∀ i d x s t, (kdsRequests oracle max_retries records).get? i = some s →
      (kdsRequests oracle max_retries records).get? (i + d) = some t →
      x ∉ s → x ∉ t) := by
  refine ⟨?_, ?_, ?_⟩
  · intro hne
    exact sendLoop_first oracle (max_retries + 1) 0 records hne (by omega)
  · intro i s t hs ht
    have := sendLoop_step oracle (max_retries + 1) 0 records i s t hs ht
    refine ⟨this.1, ?_⟩
    intro fc flags hok hfc
    exact this.2 fc flags (by rwa [Nat.zero_add]) hfc
  · intro i d x s t hs ht hx
    exact sendLoop_absent oracle (max_retries + 1) 0 records d i x s t hs ht hx

/-- C5 witness: batch `[10, 20, 30]`, first attempt fails record `20` only —
the second request is exactly `[20]`, and `10`, `30` are never re-sent. -/
theorem kds_retry_resends_exactly_failed_witness :
    (kdsRequests (fun i => if i = 0 then KdsAttempt.ok 1 [false, true, false]
        else KdsAttempt.ok 0 []) 3 [10, 20, 30]).get? 1 = some [20] ∧
    ([20] : List ℕ).Sublist [10, 20, 30] ∧
    ([20] : List ℕ) = nextFailedRecords [10, 20, 30] [false, true, false] ∧
    (10 : ℕ) ∉ ([20] : List ℕ) := by
  have h := kds_retry_resends_exactly_failed
    (fun i => if i = 0 then KdsAttempt.ok 1 [false, true, false]
      else KdsAttempt.ok 0 []) 3 [10, 20, 30]
  have hs : (kdsRequests (fun i => if i = 0 then KdsAttempt.ok 1 [false, true, false]
      else KdsAttempt.ok 0 []) 3 [10, 20, 30]).get? 0 = some [10, 20, 30] := rfl
  have ht : (kdsRequests (fun i => if i = 0 then KdsAttempt.ok 1 [false, true, false]
      else KdsAttempt.ok 0 []) 3 [10, 20, 30]).get? 1 = some [20] := rfl
  have hstep := h.2.1 0 [10, 20, 30] [20] hs ht
  exact ⟨ht, hstep.1, hstep.2 1 [false, true, false] (by simp) (by norm_num), by simp⟩

/-! ### C6: spatial dedup within the window (and ring eviction) -/

/-- The temporal-confirmation step leaves the dedup state untouched. -/
theorem weaponConfirmStep_fields (st : WeaponState) (label : String) (conf : ℚ)
    (bbox : Box) :
    ((weaponConfirmStep st label conf bbox).2).recent_detections = st.recent_detections ∧
    ((weaponConfirmStep st label conf bbox).2).frame_count = st.frame_count ∧
    ((weaponConfirmStep st label conf bbox).2).dedup_window = st.dedup_window ∧
    ((weaponConfirmStep st label conf bbox).2).dedup_grid_size = st.dedup_grid_size := by
  unfold weaponConfirmStep
  split_ifs <;> exact ⟨rfl, rfl, rfl, rfl⟩

/-- C6 (amended): a confirmed candidate whose hash is still held in the dedup
ring within `dedup_window` frames is discarded (no event, ring unchanged) —
the eviction caveat is necessary because the ring only holds the last
`dedup_window` appended entries; and in general a candidate either leaves the
ring unchanged (dropped) or emits an event and appends exactly its own
`(frame_count, hash)` entry: only non-duplicates are appended. -/
theorem weapon_dedup_within_window (st : WeaponState) (camera_id : String)
    (ts_ms : ℕ) (label : String) (conf : ℚ) (bbox : Box) :
    (∀ f1 : ℕ,
      (f1, detection_hash label bbox st.dedup_grid_size) ∈ st.recent_detections →
      st.frame_count - f1 < st.dedup_window →
      (weaponProcessOne st camera_id ts_ms label conf bbox).1 = [] ∧
      ((weaponProcessOne st camera_id ts_ms label conf bbox).2).recent_detections =
        st.recent_detections) ∧
    (((weaponProcessOne st camera_id ts_ms label conf bbox).2).recent_detections =
        st.recent_detections ∨
      ((weaponProcessOne st camera_id ts_ms label conf bbox).1 ≠ [] ∧
        ((weaponProcessOne st camera_id ts_ms label conf bbox).2).recent_detections =
          dequeAppend st.dedup_window st.recent_detections
            (st.frame_count, detection_hash label bbox st.dedup_grid_size))) := by
  obtain ⟨hrec, hfc, hwin, hgrid⟩ := weaponConfirmStep_fields st label conf bbox
  by_cases hconf : (weaponConfirmStep st label conf bbox).1
  · by_cases hdup : isDuplicate st.recent_detections st.frame_count st.dedup_window
        (detection_hash label bbox st.dedup_grid_size)
    · constructor
      · intro f1 _ _
        simp [weaponProcessOne, hconf, hrec, hfc, hwin, hgrid, hdup]
      · left
        simp [weaponProcessOne, hconf, hrec, hfc, hwin, hgrid, hdup]
    · constructor
      · intro f1 hmem hd
        exfalso
        apply hdup
        unfold isDuplicate
        rw [List.any_eq_true]
        exact ⟨(f1, detection_hash label bbox st.dedup_grid_size), hmem,
          by simp [hd]⟩
      · right
        constructor
        · simp [weaponProcessOne, hconf, hrec, hfc, hwin, hgrid, hdup]
        · simp [weaponProcessOne, hconf, hrec, hfc, hwin, hgrid, hdup]
  · constructor
    · intro f1 _ _
      simp [weaponProcessOne, hconf, hrec]
    · left
      simp [weaponProcessOne, hconf, hrec]

/-- C6 witness: a confirmed repeat of `"gun"` in grid cell `0_0`, one frame
after its ring entry, is suppressed and the ring is unchanged. -/
theorem weapon_dedup_within_window_witness :
    (weaponProcessOne
      ⟨true, TemporalBuffer.mkEmpty 5, ⟨5, 3/10, 1, []⟩, 1, 3/10, 30, 20,
        [(1, "gun:0_0")], 2⟩
      "cam" 2000 "gun" (9/10) ⟨0, 0, 10, 10⟩).1 = [] ∧
    ((weaponProcessOne
      ⟨true, TemporalBuffer.mkEmpty 5, ⟨5, 3/10, 1, []⟩, 1, 3/10, 30, 20,
        [(1, "gun:0_0")], 2⟩
      "cam" 2000 "gun" (9/10) ⟨0, 0, 10, 10⟩).2).recent_detections =
      [(1, "gun:0_0")] := by
  have hhash : detection_hash "gun" ⟨0, 0, 10, 10⟩ 20 = "gun:0_0" := by
    unfold detection_hash bbox_to_grid
    norm_num
    rfl
  have h := (weapon_dedup_within_window
    ⟨true, TemporalBuffer.mkEmpty 5, ⟨5, 3/10, 1, []⟩, 1, 3/10, 30, 20,
      [(1, "gun:0_0")], 2⟩
    "cam" 2000 "gun" (9/10) ⟨0, 0, 10, 10⟩).1 1 (by simp [hhash]) (by norm_num)
  exact h

/-- C6 counterexample: with `dedup_window = 2`, two confirmed `"gun"`
detections in cell `0_0` one frame apart BOTH produce events, because two
other events emitted in between evict the first entry from the dedup ring —
the claim as stated (any two same-cell confirmations within `dedup_window`
frames yield one event) is false. -/
theorem weapon_dedup_evicted :
    ((weaponRun "cam"
      ⟨true, TemporalBuffer.mkEmpty 5, ⟨5, 3/10, 1, []⟩, 1, 3/10, 2, 20, [], 0⟩
      [(1000, [("gun", 9/10, ⟨0, 0, 10, 10⟩)]),
       (2000, [("gun", 9/10, ⟨20, 0, 30, 10⟩), ("gun", 9/10, ⟨40, 0, 50, 10⟩),
               ("gun", 9/10, ⟨0, 0, 10, 10⟩)])]).1).map
        (fun evs => evs.map (fun e => e.det_hash)) =
      [["gun:0_0"], ["gun:1_0", "gun:2_0", "gun:0_0"]] := by
  have h00 : detection_hash "gun" ⟨0, 0, 10, 10⟩ 20 = "gun:0_0" := by
    unfold detection_hash bbox_to_grid
    norm_num
    rfl
  have h10 : detection_hash "gun" ⟨20, 0, 30, 10⟩ 20 = "gun:1_0" := by
    unfold detection_hash bbox_to_grid
    norm_num
    rfl
  have h20 : detection_hash "gun" ⟨40, 0, 50, 10⟩ 20 = "gun:2_0" := by
    unfold detection_hash bbox_to_grid
    norm_num
    rfl
  have hconf : ∀ (buf : TemporalBuffer) (l : String) (b : Box) (c thr : ℚ)
      (fi : Option ℕ), (temporal_confirm buf l b c 1 thr fi).1 = true := by
    intro buf l b c thr fi
    simp [temporal_confirm]
  have hne1 : ("gun:0_0" : String) ≠ "gun:1_0" := by decide
  have hne2 : ("gun:0_0" : String) ≠ "gun:2_0" := by decide
  have hne3 : ("gun:1_0" : String) ≠ "gun:0_0" := by decide
  have hne4 : ("gun:1_0" : String) ≠ "gun:2_0" := by decide
  have hne5 : ("gun:2_0" : String) ≠ "gun:0_0" := by decide
  have hne6 : ("gun:2_0" : String) ≠ "gun:1_0" := by decide
  norm_num [weaponRun, weaponProcessFrame, weaponProcessOne, weaponConfirmStep,
    hconf, h00, h10, h20, isDuplicate, dequeAppend, hne1, hne2, hne3, hne4,
    hne5, hne6]

/-! ### C3 and C4: frame-source reconnection, backoff and the fatal state -/

theorem cbTrace_nonneg (cfg : SrcCfg) (hm : 1 ≤ cfg.backoff_multiplier)
    (hb : 0 ≤ cfg.reconnect_delay) (hd : 0 ≤ cfg.max_reconnect_delay) :
    ∀ n, 0 ≤ cbTrace cfg n := by
  intro n
  induction n with
  | zero => exact hb
  | succ n ih =>
    exact le_min (mul_nonneg ih (le_trans zero_le_one hm)) hd

/-- The capped backoff after `n` doublings is `min (base · multiplierⁿ) max`. -/
theorem min_cbTrace (cfg : SrcCfg) (hm : 1 ≤ cfg.backoff_multiplier)
    (hb : 0 ≤ cfg.reconnect_delay) (hd : 0 ≤ cfg.max_reconnect_delay) :
    ∀ n, min (cbTrace cfg n) cfg.max_reconnect_delay =
      min (cfg.reconnect_delay * cfg.backoff_multiplier ^ n) cfg.max_reconnect_delay := by
  intro n
  induction n with
  | zero => simp [cbTrace]
  | succ n ih =>
    have hstep : min (cbTrace cfg (n + 1)) cfg.max_reconnect_delay =
        min (cbTrace cfg n * cfg.backoff_multiplier) cfg.max_reconnect_delay := by
      show min (min (cbTrace cfg n * cfg.backoff_multiplier) cfg.max_reconnect_delay)
        cfg.max_reconnect_delay = _
      rw [min_assoc, min_self]
    rw [hstep]
    have hpow : cfg.reconnect_delay * cfg.backoff_multiplier ^ (n + 1) =
        cfg.reconnect_delay * cfg.backoff_multiplier ^ n * cfg.backoff_multiplier := by
      ring
    rcases le_total (cbTrace cfg n) cfg.max_reconnect_delay with h1 | h1
    · rcases le_total (cfg.reconnect_delay * cfg.backoff_multiplier ^ n)
        cfg.max_reconnect_delay with h2 | h2
      · have hcb : cbTrace cfg n = cfg.reconnect_delay * cfg.backoff_multiplier ^ n :=
          (min_eq_left h1).symm.trans (ih.trans (min_eq_left h2))
        rw [hcb, hpow]
      · have hcb : cbTrace cfg n = cfg.max_reconnect_delay :=
          (min_eq_left h1).symm.trans (ih.trans (min_eq_right h2))
        have hl : cfg.max_reconnect_delay ≤ cfg.max_reconnect_delay * cfg.backoff_multiplier :=
          le_mul_of_one_le_right hd hm
        have hr : cfg.max_reconnect_delay ≤
            cfg.reconnect_delay * cfg.backoff_multiplier ^ (n + 1) := by
          rw [hpow]
          exact le_trans h2 (le_mul_of_one_le_right
            (le_trans hd h2) hm)
        rw [hcb, min_eq_right hl, min_eq_right hr]
    · have h2 : cfg.max_reconnect_delay ≤ cfg.reconnect_delay * cfg.backoff_multiplier ^ n := by
        have := (min_eq_right h1).symm.trans ih
        exact le_of_eq_of_le this (min_le_left _ _)
      have hcb : cfg.max_reconnect_delay ≤ cbTrace cfg n * cfg.backoff_multiplier :=
        le_trans h1 (le_mul_of_one_le_right
          (cbTrace_nonneg cfg hm hb hd n) hm)
      have hr : cfg.max_reconnect_delay ≤
          cfg.reconnect_delay * cfg.backoff_multiplier ^ (n + 1) := by
        rw [hpow]
        exact le_trans h2 (le_mul_of_one_le_right (le_trans hd h2) hm)
      rw [min_eq_right hcb, min_eq_right hr]

/-- A failing read on a healthy source, below the error cap: one sleep of
`min(backoff, max) · jitter`, outcome `None`, error counter 1. -/
theorem read_frame_connected_fail (cfg : SrcCfg) (jj : ℚ)
    (h : 2 ≤ cfg.max_consecutive_errors) :
    read_frame cfg (connectedSt cfg) (wFail jj) =
      (.noneOut, stErr cfg 1, [min cfg.reconnect_delay cfg.max_reconnect_delay * jj]) := by
  have hlt : ¬ (cfg.max_consecutive_errors ≤ 0 + 1) := by omega
  have hlt' : ¬ (cfg.max_consecutive_errors ≤ 1) := by omega
  simp [read_frame, connectedSt, wFail, readFrameRefresh, readFrameTry,
    handle_reconnect, calculate_backoff_delay, open_stream, stErr, cbTrace,
    hlt, hlt']

/-- A failing reopen attempt from the error state, below the cap. -/
theorem read_frame_error_fail (cfg : SrcCfg) (jj : ℚ) (n : ℕ)
    (h : n + 1 < cfg.max_consecutive_errors) :
    read_frame cfg (stErr cfg n) (wFail jj) =
      (.noneOut, stErr cfg (n + 1),
        [min (cbTrace cfg n) cfg.max_reconnect_delay * jj]) := by
  have hlt : ¬ (cfg.max_consecutive_errors ≤ n + 1) := by omega
  simp [read_frame, stErr, wFail, handle_reconnect, calculate_backoff_delay,
    open_stream, cbTrace, hlt]

/-- A failing reopen attempt from the error state at the cap raises
`FrameSourceError` with no sleep. -/
theorem read_frame_error_fatal (cfg : SrcCfg) (jj : ℚ) (n : ℕ)
    (h : cfg.max_consecutive_errors ≤ n + 1) :
    read_frame cfg (stErr cfg n) (wFail jj) =
      (.fatal, ⟨.error, n + 1, cbTrace cfg n, false⟩, []) := by
  simp [read_frame, stErr, wFail, handle_reconnect, open_stream, h]

/-- A failing read on a healthy source with `max_consecutive_errors ≤ 1`:
the raise inside the `try` is caught, `_handle_reconnect` runs once more and
raises again — fatal, no sleep. -/
theorem read_frame_connected_fatal (cfg : SrcCfg) (jj : ℚ)
    (h : cfg.max_consecutive_errors ≤ 1) :
    read_frame cfg (connectedSt cfg) (wFail jj) =
      (.fatal, ⟨.connected, 2, cfg.reconnect_delay, true⟩, []) := by
  have h2 : cfg.max_consecutive_errors ≤ 2 := by omega
  have h1 : cfg.max_consecutive_errors ≤ 0 + 1 := by omega
  simp [read_frame, connectedSt, wFail, readFrameRefresh, readFrameTry,
    readFrameExcept, handle_reconnect, h, h1, h2]

/-- The state after `n` consecutive failing calls, below the cap. -/
theorem failTrace_eq (cfg : SrcCfg) (j : ℕ → ℚ) :
    ∀ n, 1 ≤ n → n < cfg.max_consecutive_errors → failTrace cfg j n = stErr cfg n := by
  intro n
  induction n with
  | zero =>
    intro h
    omega
  | succ n ih =>
    intro _ hlt
    cases n with
    | zero =>
      show (read_frame cfg (failTrace cfg j 0) (wFail (j 1))).2.1 = stErr cfg 1
      rw [show failTrace cfg j 0 = connectedSt cfg from rfl,
        read_frame_connected_fail cfg (j 1) (by omega)]
    | succ n =>
      show (read_frame cfg (failTrace cfg j (n + 1)) (wFail (j (n + 2)))).2.1 =
        stErr cfg (n + 2)
      rw [ih (by omega) (by omega), read_frame_error_fail cfg (j (n + 2)) (n + 1) (by omega)]

/-- C4 (amended): in a run of consecutive failures, the sleep before
reconnection attempt `n` (for `1 ≤ n < max_consecutive_errors`) is
`min(base · multiplier^(n-1), max) · jitterₙ` — exponent `n - 1`, not `n` —
and the `max_consecutive_errors`-th failure raises immediately with NO
preceding sleep. -/
theorem backoff_sleep_formula (cfg : SrcCfg) (j : ℕ → ℚ)
    (hm : 1 ≤ cfg.backoff_multiplier) (hb : 0 ≤ cfg.reconnect_delay)
    (hd : 0 ≤ cfg.max_reconnect_delay) (n : ℕ) :
    (n + 1 < cfg.max_consecutive_errors →
      (failCall cfg j n).1 = .noneOut ∧
      (failCall cfg j n).2.2 =
        [min (cfg.reconnect_delay * cfg.backoff_multiplier ^ n)
            cfg.max_reconnect_delay * j (n + 1)]) ∧
    (n + 1 = cfg.max_consecutive_errors →
      (failCall cfg j n).1 = .fatal ∧ (failCall cfg j n).2.2 = []) := by
  constructor
  · intro hlt
    unfold failCall
    cases n with
    | zero =>
      rw [show failTrace cfg j 0 = connectedSt cfg from rfl,
        read_frame_connected_fail cfg (j 1) (by omega)]
      refine ⟨rfl, ?_⟩
      simp
    | succ n =>
      rw [failTrace_eq cfg j (n + 1) (by omega) (by omega),
        read_frame_error_fail cfg (j (n + 2)) (n + 1) (by omega)]
      refine ⟨rfl, ?_⟩
      rw [min_cbTrace cfg hm hb hd (n + 1)]
  · intro heq
    unfold failCall
    cases n with
    | zero =>
      rw [show failTrace cfg j 0 = connectedSt cfg from rfl,
        read_frame_connected_fatal cfg (j 1) (by omega)]
      exact ⟨rfl, rfl⟩
    | succ n =>
      rw [failTrace_eq cfg j (n + 1) (by omega) (by omega),
        read_frame_error_fatal cfg (j (n + 2)) (n + 1) (by omega)]
      exact ⟨rfl, rfl⟩

/-- C4 witness: with `base = 1, max = 10, multiplier = 2,
max_consecutive_errors = 3`, the first failure sleeps
`min(1·2⁰,10)·jitter = 1` and the third failure is fatal with no sleep. -/
theorem backoff_sleep_formula_witness :
    (failCall ⟨1, 10, 2, 3⟩ (fun _ => 1) 0).1 = .noneOut ∧
    (failCall ⟨1, 10, 2, 3⟩ (fun _ => 1) 0).2.2 = [min ((1 : ℚ) * 2 ^ 0) 10 * 1] ∧
    (failCall ⟨1, 10, 2, 3⟩ (fun _ => 1) 2).1 = .fatal ∧
    (failCall ⟨1, 10, 2, 3⟩ (fun _ => 1) 2).2.2 = [] := by
  have h0 := backoff_sleep_formula ⟨1, 10, 2, 3⟩ (fun _ => 1) (by norm_num)
    (by norm_num) (by norm_num) 0
  have h2 := backoff_sleep_formula ⟨1, 10, 2, 3⟩ (fun _ => 1) (by norm_num)
    (by norm_num) (by norm_num) 2
  have ha := h0.1 (by norm_num)
  have hc := h2.2 (by norm_num)
  exact ⟨ha.1, ha.2, hc.1, hc.2⟩

/-- C4 counterexample: with `base = 1s, max = 10s, multiplier = 2,
max_consecutive_errors = 3` and jitter 1, three consecutive failures sleep
`[1, 2]` seconds: the first sleep is 1s, outside the `[1.6, 2.4]` interval the
claim's `min(base·multiplierⁿ, max)` formula demands for `n = 1`, and the
fatal third failure happens with only two sleeps — no third sleep in
`[3.2, 4.8]` precedes it. -/
theorem backoff_third_sleep_missing :
    (runCalls ⟨1, 10, 2, 3⟩ (connectedSt ⟨1, 10, 2, 3⟩)
      [wFail 1, wFail 1, wFail 1]).1 = [.noneOut, .noneOut, .fatal] ∧
    (runCalls ⟨1, 10, 2, 3⟩ (connectedSt ⟨1, 10, 2, 3⟩)
      [wFail 1, wFail 1, wFail 1]).2.2 = [1, 2] ∧
    ¬ ((8 / 5 : ℚ) ≤ 1) := by
  have h1 := read_frame_connected_fail ⟨1, 10, 2, 3⟩ 1 (by norm_num)
  have h2 := read_frame_error_fail ⟨1, 10, 2, 3⟩ 1 1 (by norm_num)
  have h3 := read_frame_error_fatal ⟨1, 10, 2, 3⟩ 1 2 (by norm_num)
  simp only [runCalls, h1, h2, h3]
  norm_num [cbTrace, min_def]

/-- A successful reopen and read from the error state yields a frame and a
reset error counter. -/
theorem read_frame_recover (cfg : SrcCfg) (st : SrcSt) (herr : st.conn = .error) :
    read_frame cfg st wRecover =
      (.frame, ⟨.connected, 0, cfg.reconnect_delay, true⟩, []) := by
  simp [read_frame, herr, wRecover, open_stream, reset_backoff,
    readFrameRefresh, readFrameTry]

/-- C3 (amended): once the consecutive-error counter would reach
`max_consecutive_errors`, a `read_frame` call whose reopen fails raises
`FrameSourceError` (fatal) — it does not return none; and the fatal state is
not permanent: a later call whose reopen and read succeed returns a frame and
resets the error counter to zero. -/
theorem read_frame_fatal_behaviour (cfg : SrcCfg) (st : SrcSt) (w : CallWorld)
    (herr : st.conn = .error) :
    (cfg.max_consecutive_errors ≤ st.consecutive_errors + 1 → w.openTop = false →
      (read_frame cfg st w).1 = .fatal) ∧
    (w.openTop = true → w.refreshNeeded = false → w.readOk = true →
      (read_frame cfg st w).1 = .frame ∧
      (read_frame cfg st w).2.1.consecutive_errors = 0) := by
  constructor
  · intro hmax hopen
    simp [read_frame, herr, hopen, open_stream, handle_reconnect, hmax]
  · intro hopen hrefresh hread
    simp [read_frame, herr, hopen, hrefresh, hread, open_stream, reset_backoff,
      readFrameRefresh, readFrameTry]

/-- C3 witness: at the error cap a failing call raises (not none), and a
successful reopen afterwards yields a frame again. -/
theorem read_frame_fatal_behaviour_witness :
    (read_frame ⟨1, 10, 2, 3⟩ ⟨.error, 2, 4, false⟩ (wFail 1)).1 = .fatal ∧
    (read_frame ⟨1, 10, 2, 3⟩ ⟨.error, 2, 4, false⟩ wRecover).1 = .frame := by
  have h1 := (read_frame_fatal_behaviour ⟨1, 10, 2, 3⟩ ⟨.error, 2, 4, false⟩
    (wFail 1) rfl).1 (by norm_num) rfl
  have h2 := (read_frame_fatal_behaviour ⟨1, 10, 2, 3⟩ ⟨.error, 2, 4, false⟩
    wRecover rfl).2 rfl rfl rfl
  exact ⟨h1, h2.1⟩

/-- C3 counterexample: after the fatal third failure, the very next call —
with the stream reopening successfully — returns a frame, so it is false that
"every subsequent call to read_frame yields none" and that the source "never
again produces a frame"; the fatal call itself raises rather than yielding
none. -/
theorem read_frame_after_fatal_not_none :
    (runCalls ⟨1, 10, 2, 3⟩ (connectedSt ⟨1, 10, 2, 3⟩)
      [wFail 1, wFail 1, wFail 1, wRecover]).1 =
      [.noneOut, .noneOut, .fatal, .frame] := by
  have h1 := read_frame_connected_fail ⟨1, 10, 2, 3⟩ 1 (by norm_num)
  have h2 := read_frame_error_fail ⟨1, 10, 2, 3⟩ 1 1 (by norm_num)
  have h3 := read_frame_error_fatal ⟨1, 10, 2, 3⟩ 1 2 (by norm_num)
  have h4 := read_frame_recover ⟨1, 10, 2, 3⟩ ⟨.error, 2 + 1, cbTrace ⟨1, 10, 2, 3⟩ 2, false⟩ rfl
  simp only [runCalls, h1, h2, h3, h4]

end KvsInfer
